import Mathlib

set_option maxHeartbeats 1000000

attribute [local semireducible] Rat.add Rat.mul Rat.inv Rat.sub

/-!
Shallow embedding of the WSCL Distance Tracker (`calculator.py`).

The pipeline geocodes teams and venues through an external geocoding
service (modelled as an oracle `String → Option RawGeo`), computes a
round-trip distance matrix through an external distance-matrix service
(modelled as an oracle on geocoded points), and aggregates per-team and
per-venue totals.  Machine floats are modelled as exact rationals;
Python's in-memory dicts are modelled as insertion-ordered association
lists; raising an exception is modelled by returning `none`.
-/

/-! ## Generic association-list operations (model of Python dict) -/

def alookup {κ : Type} {α : Type} [DecidableEq κ] (k : κ) : List (κ × α) → Option α
  | [] => none
  | (k1, v) :: rest => if k1 = k then some v else alookup k rest

def upsert {κ : Type} {α : Type} [DecidableEq κ] (k : κ) (v : α) :
    List (κ × α) → List (κ × α)
  | [] => [(k, v)]
  | (k1, v1) :: rest => if k1 = k then (k, v) :: rest else (k1, v1) :: upsert k v rest

/-! ## Python string primitives used by the source -/

def pyIsSpace (c : Char) : Bool :=
  c = ' ' || c = '\t' || c = '\n' || c = '\r' || c = '\x0b' || c = '\x0c'

def pyStripList (s : List Char) : List Char :=
  ((s.dropWhile pyIsSpace).reverse.dropWhile pyIsSpace).reverse

/-- Model of Python `str.strip()`. -/
def pyStrip (s : String) : String :=
  String.mk (pyStripList s.data)

def pyLower (s : String) : String :=
  String.mk (s.data.map Char.toLower)

def leadsWithCI : List Char → List Char → Bool
  | [], _ => true
  | _ :: _, [] => false
  | p :: ps, c :: cs => (p.toLower = c.toLower) && leadsWithCI ps cs

def leadsWithChars : List Char → List Char → Bool
  | [], _ => true
  | _ :: _, [] => false
  | p :: ps, c :: cs => (p = c) && leadsWithChars ps cs

def containsSeq (needle : List Char) : List Char → Bool
  | [] => leadsWithChars needle []
  | c :: cs => leadsWithChars needle (c :: cs) || containsSeq needle cs

/-- Model of Python `needle in hay` on strings. -/
def pyIn (needle hay : String) : Bool :=
  containsSeq needle.data hay.data

/-- One step of `re.sub(re.escape(pat), "", s, flags=IGNORECASE)`:
replace every non-overlapping case-insensitive occurrence of `pat` by
nothing, scanning left to right.  The fuel argument equals the input
length, which suffices since each step consumes at least one character. -/
def removeCIF (pat : List Char) : Nat → List Char → List Char
  | _, [] => []
  | 0, s => s
  | Nat.succ fuel, c :: cs =>
    if !pat.isEmpty && leadsWithCI pat (c :: cs) then
      removeCIF pat fuel (List.drop (pat.length - 1) cs)
    else
      c :: removeCIF pat fuel cs

def removeCI (pat s : List Char) : List Char := removeCIF pat s.length s

/-- Model of `re.sub(r"\s{2,}", " ", ·)`: collapse runs of two or more
whitespace characters to a single space (a lone whitespace character is
kept as is). -/
def collapseWsF : Nat → List Char → List Char
  | _, [] => []
  | 0, s => s
  | Nat.succ fuel, c :: cs =>
    if pyIsSpace c then
      match cs with
      | [] => [c]
      | c2 :: _ =>
        if pyIsSpace c2 then ' ' :: collapseWsF fuel (cs.dropWhile pyIsSpace)
        else c :: collapseWsF fuel cs
    else c :: collapseWsF fuel cs

def collapseWs (s : List Char) : List Char := collapseWsF s.length s

/-- Model of `re.sub(r"\s+", "_", ·)`: each maximal whitespace run
becomes a single underscore. -/
def wsUnderscoreF : Nat → List Char → List Char
  | _, [] => []
  | 0, s => s
  | Nat.succ fuel, c :: cs =>
    if pyIsSpace c then '_' :: wsUnderscoreF fuel (cs.dropWhile pyIsSpace)
    else c :: wsUnderscoreF fuel cs

def safeVenueName (s : String) : String :=
  String.mk (wsUnderscoreF s.data.length s.data)

/-! Model of `re.search(r",\s*[A-Z]{2}\b", query)`. -/

def twoUpperBoundary : List Char → Bool
  | a :: b :: rest =>
    a.isUpper && b.isUpper &&
      (match rest with
       | [] => true
       | c :: _ => !(c.isAlphanum || c = '_'))
  | _ => false

def afterCommaState : List Char → Bool
  | [] => false
  | c :: cs => if pyIsSpace c then afterCommaState cs else twoUpperBoundary (c :: cs)

def stateCodeAt : List Char → Bool
  | ',' :: rest => afterCommaState rest
  | _ => false

def suffixesOf : List Char → List (List Char)
  | [] => [[]]
  | c :: cs => (c :: cs) :: suffixesOf cs

def hasStateCode (s : String) : Bool :=
  (suffixesOf s.data).any stateCodeAt

/-! Model of Python `int(str)`: optional surrounding whitespace, optional
sign, then decimal digits with single underscores allowed between digits. -/

def charDigitVal (c : Char) : Nat := c.toNat - '0'.toNat

def pyDigitsGo (acc : Nat) : List Char → Option Nat
  | [] => some acc
  | ['_'] => none
  | '_' :: c :: cs => if c.isDigit then pyDigitsGo (acc * 10 + charDigitVal c) cs else none
  | c :: cs => if c.isDigit then pyDigitsGo (acc * 10 + charDigitVal c) cs else none

def pyDigits : List Char → Option Nat
  | [] => none
  | c :: cs => if c.isDigit then pyDigitsGo (charDigitVal c) cs else none

def pyInt (s : String) : Option Int :=
  match pyStripList s.data with
  | '+' :: rest => (pyDigits rest).map (fun n => (n : Int))
  | '-' :: rest => (pyDigits rest).map (fun n => -(n : Int))
  | rest => (pyDigits rest).map (fun n => (n : Int))

/-- Python `s or d` for strings: the default kicks in exactly on the
empty string. -/
def pyOr (s d : String) : String := if s = "" then d else s

/-- Python zero-padded two-digit integer formatting (format spec 02d). -/
def pad2 (n : Int) : String :=
  if 0 ≤ n ∧ n ≤ 9 then "0" ++ toString n else toString n

/-! ## Rounding (Python `round(x, 1)` / `round(x, 2)` over exact rationals) -/

/-- Floor of a rational, written directly on the numerator and
denominator so that it evaluates by kernel reduction. -/
def zfloor (q : ℚ) : ℤ := q.num / (q.den : ℤ)

/-- Round to the nearest integer (half away from zero ties resolved
upward; ties are irrelevant to the claims). -/
def roundHalfUp (q : ℚ) : ℤ := zfloor (q + 1 / 2)

def round1 (q : ℚ) : ℚ := ((roundHalfUp (q * 10) : ℤ) : ℚ) / 10

def round2 (q : ℚ) : ℚ := ((roundHalfUp (q * 100) : ℤ) : ℚ) / 100

/-! ## Configuration tables (lines 30–59 of the source) -/

def LAT_MIN : ℚ := 45
def LAT_MAX : ℚ := 99 / 2
def LNG_MIN : ℚ := -125
def LNG_MAX : ℚ := -116

def LOCATION_STANDARDIZATION : List (String × String) := [
  ("360 Trails", "360 Trails"),
  ("360 Trails Park", "360 Trails"),
  ("360 Trails (State Championship and Relay)", "360 Trails"),
  ("Squilchuck (Race + Camping)", "Squilchuck State Park"),
  ("Squilchuck (State Park)", "Squilchuck State Park"),
  ("(local venue)", "Riverside State Park"),
  ("Riverside (State Park)", "Riverside State Park"),
  ("Liberty Bell High School", "Liberty Bell High School"),
  ("Roslyn High School", "Roslyn High School"),
  ("Cle Elum-Roslyn High School", "Roslyn High School")]

def CITY_LOCAL_VENUE_OVERRIDES : List (String × String) := [
  ("Spokane", "Riverside State Park"),
  ("Winthrop", "Liberty Bell High School"),
  ("Ephrata", "Ephrata, WA")]

/-! ## Helpers (lines 66–101 of the source) -/

inductive Season where
  | Spring
  | Fall
  | Other
deriving DecidableEq

def infer_season (month : Int) : Season :=
  if 3 ≤ month ∧ month ≤ 6 then Season.Spring
  else if 9 ≤ month ∧ month ≤ 11 then Season.Fall
  else Season.Other

def splitSlash : List Char → List (List Char)
  | [] => [[]]
  | c :: cs =>
    if c = '/' then [] :: splitSlash cs
    else
      match splitSlash cs with
      | [] => [[c]]
      | p :: ps => (c :: p) :: ps

/-- Model of `parse_mm_dd`: `m, d = date_str.split("/")` then `int(m), int(d)`.
`none` models the `ValueError` raised on a malformed date. -/
def parse_mm_dd (s : String) : Option (Int × Int) :=
  match splitSlash s.data with
  | [ms, ds] =>
    match pyInt (String.mk ms), pyInt (String.mk ds) with
    | some m, some d => some (m, d)
    | _, _ => none
  | _ => none

/-- First matching entry of the `(local venue)` override loop. -/
def findOverride (cityLower : String) : List (String × String) → Option String
  | [] => none
  | (k, v) :: rest =>
    if pyIn (pyLower k) cityLower then some v else findOverride cityLower rest

def standardize_venue_name (city venue : String) : String :=
  let v := pyStrip venue
  if v = "(local venue)" then
    match findOverride (pyLower city) CITY_LOCAL_VENUE_OVERRIDES with
    | some res => res
    | none =>
      match alookup v LOCATION_STANDARDIZATION with
      | some res => res
      | none => v
  else
    match alookup v LOCATION_STANDARDIZATION with
    | some res => res
    | none => v

def clean_city_field (team_name city : String) : String :=
  if city = "" then city
  else
    let c1 := pyStripList (removeCI team_name.data city.data)
    let c2 := collapseWs c1
    if c2 = [] then city else String.mk c2

/-! ## Geocoding Resolver (lines 117–160 of the source)

The external service is an oracle `ext : String → Option RawGeo`:
`none` models a non-`OK` status or an empty result list, `some r` models
an `OK` response whose first result has the given coordinates and
formatted address.  The per-run cache and the log of external (non-cached)
calls are threaded explicitly. -/

structure RawGeo where
  lat : ℚ
  lng : ℚ
  formatted_address : String
deriving DecidableEq

structure Geocoded where
  query : String
  formatted_address : String
  lat : ℚ
  lng : ℚ
deriving DecidableEq

structure GeoState where
  cache : List (String × Option Geocoded)
  callLog : List String
deriving DecidableEq

def emptyGeoState : GeoState := ⟨[], []⟩

def inBounds (r : RawGeo) : Bool :=
  decide (LAT_MIN ≤ r.lat ∧ r.lat ≤ LAT_MAX ∧ LNG_MIN ≤ r.lng ∧ r.lng ≤ LNG_MAX)

def augmentQuery (query force_state : String) : String :=
  if hasStateCode query then query else query ++ ", " ++ force_state ++ ", USA"

def geoCacheKey (query force_state : String) : String :=
  query ++ "|" ++ force_state

def geocode_location (ext : String → Option RawGeo) (st : GeoState)
    (query : String) (force_state : String) : Option Geocoded × GeoState :=
  let cache_key := geoCacheKey query force_state
  match alookup cache_key st.cache with
  | some v => (v, st)
  | none =>
    match ext (augmentQuery query force_state) with
    | none =>
      (none, ⟨(cache_key, none) :: st.cache, st.callLog ++ [cache_key]⟩)
    | some r =>
      if inBounds r then
        let g : Geocoded := ⟨query, r.formatted_address, r.lat, r.lng⟩
        (some g, ⟨(cache_key, some g) :: st.cache, st.callLog ++ [cache_key]⟩)
      else
        (none, ⟨(cache_key, none) :: st.cache, st.callLog ++ [cache_key]⟩)

/-- The cache-independent summary of one geocoding lookup: what a fresh
call returns and caches. -/
def geoAccept (ext : String → Option RawGeo) (query force_state : String) :
    Option Geocoded :=
  match ext (augmentQuery query force_state) with
  | none => none
  | some r =>
    if inBounds r then some ⟨query, r.formatted_address, r.lat, r.lng⟩ else none

/-! ## Pairwise Distance Resolver (lines 162–204 of the source)

The external service is an oracle on the two geocoded endpoints,
returning `(meters, seconds)` on success and `none` on a non-`OK`
status or a route-not-found element. -/

def METERS_PER_MILE : ℚ := 160934 / 100

structure DistState where
  cache : List ((Int × Int × Int × Int) × (ℚ × ℚ))
deriving DecidableEq

def emptyDistState : DistState := ⟨[]⟩

/-- Coordinate formatted to six decimals (format spec .6f), as used in the
distance cache key. -/
def fmt6 (q : ℚ) : Int := round (q * 1000000)

def distCacheKey (o d : Geocoded) : Int × Int × Int × Int :=
  (fmt6 o.lat, fmt6 o.lng, fmt6 d.lat, fmt6 d.lng)

def distance_and_time (dist : Geocoded → Geocoded → Option (ℚ × ℚ))
    (st : DistState) (origin destination : Geocoded) : (ℚ × ℚ) × DistState :=
  let key := distCacheKey origin destination
  match alookup key st.cache with
  | some v => (v, st)
  | none =>
    match dist origin destination with
    | none => ((0, 0), ⟨(key, (0, 0)) :: st.cache⟩)
    | some (m, s) =>
      let miles := m / METERS_PER_MILE
      let hours := s / 3600
      ((miles, hours), ⟨(key, (miles, hours)) :: st.cache⟩)

/-- The cache-independent one-way result of a distance lookup. -/
def rawPair (dist : Geocoded → Geocoded → Option (ℚ × ℚ))
    (origin destination : Geocoded) : ℚ × ℚ :=
  match dist origin destination with
  | none => (0, 0)
  | some (m, s) => (m / METERS_PER_MILE, s / 3600)

/-! ## process_teams (lines 208–247 of the source) -/

structure TeamRow where
  team : String
  city : String
  state : String
  zip : String
deriving DecidableEq

structure Team where
  name : String
  city : String
  state : String
  zip : String
  geocoded : Geocoded
deriving DecidableEq

def process_teams (ext : String → Option RawGeo) (st : GeoState) :
    List TeamRow → List Team × GeoState
  | [] => ([], st)
  | r :: rs =>
    let team := pyStrip r.team
    let city0 := pyStrip r.city
    let state := pyStrip (pyOr r.state "WA")
    let zipc := pyStrip r.zip
    if team = "" then process_teams ext st rs
    else
      let city := clean_city_field team city0
      let zres : Option Geocoded × GeoState :=
        if zipc ≠ "" then geocode_location ext st zipc state else (none, st)
      let gres : Option Geocoded × GeoState :=
        match zres with
        | (some g, st1) => (some g, st1)
        | (none, st1) =>
          if city ≠ "" then geocode_location ext st1 city state else (none, st1)
      match gres with
      | (some g, st2) =>
        (⟨team, city, state, zipc, g⟩ :: (process_teams ext st2 rs).1,
          (process_teams ext st2 rs).2)
      | (none, st2) => process_teams ext st2 rs

/-! ## process_races (lines 249–302 of the source) -/

structure RaceRow where
  year : String
  date : String
  city : String
  venue : String
deriving DecidableEq

structure VenueRec where
  location_key : String
  city : String
  venue : String
  geocoded : Geocoded
deriving DecidableEq

structure Event where
  event_id : String
  year : String
  month : Int
  day : Int
  season : Season
  date : String
  location_key : String
deriving DecidableEq

def mkEventId (year : String) (month day : Int) (city venue : String) : String :=
  year ++ "-" ++ pad2 month ++ "-" ++ pad2 day ++ "_" ++ city ++ "_" ++ safeVenueName venue

/-- The loop body of `process_races`; `none` models the uncaught
`ValueError` of `parse_mm_dd` aborting the run. -/
def races_loop (ext : String → Option RawGeo) :
    List RaceRow → GeoState → List VenueRec → List Event →
    Option (List VenueRec × List Event × GeoState)
  | [], st, vs, es => some (vs, es, st)
  | r :: rs, st, vs, es =>
    let city := pyStrip r.city
    let venue_in := pyStrip r.venue
    let date := pyStrip r.date
    let year := pyStrip r.year
    if city = "" ∨ venue_in = "" ∨ date = "" ∨ year = "" then
      races_loop ext rs st vs es
    else
      let venue := standardize_venue_name city venue_in
      match parse_mm_dd date with
      | none => none
      | some (month, day) =>
        let season := infer_season month
        let location_key := city ++ ", " ++ venue
        let ev : Event :=
          ⟨mkEventId year month day city venue, year, month, day, season, date,
            location_key⟩
        if vs.any (fun v => v.location_key = location_key) then
          races_loop ext rs st vs (es ++ [ev])
        else
          let query := venue ++ ", " ++ city
          match geocode_location ext st query "WA" with
          | (none, st1) => races_loop ext rs st1 vs es
          | (some geo, st1) =>
            races_loop ext rs st1 (vs ++ [⟨location_key, city, venue, geo⟩])
              (es ++ [ev])

def process_races (ext : String → Option RawGeo) (st : GeoState)
    (rows : List RaceRow) : Option (List VenueRec × List Event × GeoState) :=
  races_loop ext rows st [] []

/-! ## compute_team_venue_distances (lines 304–339 of the source) -/

structure Pair where
  miles : ℚ
  hours : ℚ
deriving DecidableEq

structure SeasonTotals where
  spring : Pair
  fall : Pair
  other : Pair
deriving DecidableEq

def zeroPair : Pair := ⟨0, 0⟩

def zeroSeasonTotals : SeasonTotals := ⟨zeroPair, zeroPair, zeroPair⟩

structure TeamEntry where
  venues : List (String × Pair)
  total_miles_events : ℚ
  total_hours_events : ℚ
  season_totals : SeasonTotals
deriving DecidableEq

/-- Round-trip figures stored in the matrix: `round(one_way * 2, ndigits)`. -/
def rtPair (oneWay : ℚ × ℚ) : Pair :=
  ⟨round1 (oneWay.1 * 2), round2 (oneWay.2 * 2)⟩

def ctvdInner (dist : Geocoded → Geocoded → Option (ℚ × ℚ)) (tg : Geocoded) :
    List VenueRec → DistState → List (String × Pair) →
    List (String × Pair) × DistState
  | [], st, acc => (acc, st)
  | v :: rest, st, acc =>
    ctvdInner dist tg rest (distance_and_time dist st tg v.geocoded).2
      (upsert v.location_key (rtPair (distance_and_time dist st tg v.geocoded).1) acc)

def freshTeamEntry (vmap : List (String × Pair)) : TeamEntry :=
  ⟨vmap, 0, 0, zeroSeasonTotals⟩

def ctvdOuter (dist : Geocoded → Geocoded → Option (ℚ × ℚ))
    (venues : List VenueRec) :
    List Team → DistState → List (String × TeamEntry) →
    List (String × TeamEntry) × DistState
  | [], st, acc => (acc, st)
  | t :: ts, st, acc =>
    ctvdOuter dist venues ts (ctvdInner dist t.geocoded venues st []).2
      (upsert t.name (freshTeamEntry (ctvdInner dist t.geocoded venues st []).1) acc)

def compute_team_venue_distances (dist : Geocoded → Geocoded → Option (ℚ × ℚ))
    (teams : List Team) (venues : List VenueRec) (st : DistState) :
    List (String × TeamEntry) × DistState :=
  ctvdOuter dist venues teams st []

/-! ## derive_aggregates (lines 347–423 of the source) -/

/-- Lookup with zero default, modelling the dict `.get` with a zero pair default. -/
def getPair (vmap : List (String × Pair)) (k : String) : Pair :=
  match alookup k vmap with
  | some p => p
  | none => zeroPair

def addToSeason (stot : SeasonTotals) (s : Season) (p : Pair) : SeasonTotals :=
  match s with
  | Season.Spring => ⟨⟨stot.spring.miles + p.miles, stot.spring.hours + p.hours⟩,
      stot.fall, stot.other⟩
  | Season.Fall => ⟨stot.spring,
      ⟨stot.fall.miles + p.miles, stot.fall.hours + p.hours⟩, stot.other⟩
  | Season.Other => ⟨stot.spring, stot.fall,
      ⟨stot.other.miles + p.miles, stot.other.hours + p.hours⟩⟩

def roundSeasonTotals (stot : SeasonTotals) : SeasonTotals :=
  ⟨⟨round1 stot.spring.miles, round2 stot.spring.hours⟩,
   ⟨round1 stot.fall.miles, round2 stot.fall.hours⟩,
   ⟨round1 stot.other.miles, round2 stot.other.hours⟩⟩

/-- One event's contribution to a team's running totals (the body of the
`for e in events` loop at lines 372–378). -/
def aggStep (vmap : List (String × Pair)) (a : ℚ × ℚ × SeasonTotals)
    (e : Event) : ℚ × ℚ × SeasonTotals :=
  (a.1 + (getPair vmap e.location_key).miles,
   a.2.1 + (getPair vmap e.location_key).hours,
   addToSeason a.2.2 e.season (getPair vmap e.location_key))

/-- The per-team pass of `derive_aggregates` (lines 364–384): reset the
season totals, accumulate every event's round-trip figures into the
overall and per-season totals, then round and store them back into the
team's entry.  The per-venue map is left untouched. -/
def teamAgg (events : List Event) (td : TeamEntry) : TeamEntry :=
  let acc := events.foldl (aggStep td.venues) (0, 0, zeroSeasonTotals)
  ⟨td.venues, round1 acc.1, round2 acc.2.1, roundSeasonTotals acc.2.2⟩

/-- First-occurrence deduplication: the iteration (and insertion) order
of the keys of a `Counter` built from a list. -/
def firstDedup : List String → List String
  | [] => []
  | x :: rest => x :: (firstDedup rest).filter (fun y => y ≠ x)

/-- Model of `Counter(xs)` as an insertion-ordered association list. -/
def counterItems (xs : List String) : List (String × Nat) :=
  (firstDedup xs).map (fun k => (k, xs.count k))

/-- Sum over all teams of one venue's round-trip miles, weighted by that
venue's event count (lines 388–392). -/
def venueMilesTotal (distances : List (String × TeamEntry)) (k : String)
    (count : Nat) : ℚ :=
  distances.foldl (fun acc p => acc + (getPair p.2.venues k).miles * count) 0

def venueHoursTotal (distances : List (String × TeamEntry)) (k : String)
    (count : Nat) : ℚ :=
  distances.foldl (fun acc p => acc + (getPair p.2.venues k).hours * count) 0

structure Aggregates where
  venue_event_counts : List (String × Nat)
  venue_event_counts_by_season : Season → List (String × Nat)
  venue_total_miles : List (String × ℚ)
  venue_total_hours : List (String × ℚ)
  venue_total_miles_by_season : Season → List (String × ℚ)
  venue_total_hours_by_season : Season → List (String × ℚ)

/-- Model of `derive_aggregates(distances, events)`.  The first component is the
`distances` dict as it stands after the function ran (the source mutates
each team's totals in place); the second is the returned aggregates. -/
def derive_aggregates (distances : List (String × TeamEntry))
    (events : List Event) : List (String × TeamEntry) × Aggregates :=
  let venue_event_counts := counterItems (events.map (fun e => e.location_key))
  let countsFor : Season → List (String × Nat) := fun s =>
    counterItems ((events.filter (fun e => e.season = s)).map
      (fun e => e.location_key))
  let distances1 := distances.map (fun p => (p.1, teamAgg events p.2))
  let vtm := venue_event_counts.map
    (fun kc => (kc.1, round1 (venueMilesTotal distances kc.1 kc.2)))
  let vth := venue_event_counts.map
    (fun kc => (kc.1, round2 (venueHoursTotal distances kc.1 kc.2)))
  let vtmS : Season → List (String × ℚ) := fun s =>
    (countsFor s).map
      (fun kc => (kc.1, round1 (venueMilesTotal distances kc.1 kc.2)))
  let vthS : Season → List (String × ℚ) := fun s =>
    (countsFor s).map
      (fun kc => (kc.1, round2 (venueHoursTotal distances kc.1 kc.2)))
  (distances1, ⟨venue_event_counts, countsFor, vtm, vth, vtmS, vthS⟩)

/-! ## Concrete oracles and inputs used by witnesses and counterexamples -/

/-- An oracle that geocodes everything to a fixed in-bounds point. -/
def extInB : String → Option RawGeo := fun _ => some ⟨47, -120, "addr"⟩

/-- An oracle whose geocoding always fails. -/
def extFail : String → Option RawGeo := fun _ => none

/-- An oracle whose geocoding always returns an out-of-bounds point. -/
def extOOB : String → Option RawGeo := fun _ => some ⟨0, 0, "bad"⟩

def distConst : Geocoded → Geocoded → Option (ℚ × ℚ) := fun _ _ => some (160934, 5400)

def distFail : Geocoded → Geocoded → Option (ℚ × ℚ) := fun _ _ => none

def gTeamA : Geocoded := ⟨"98001", "addr", 47, -120⟩

def gVenueV : Geocoded := ⟨"X, Spokane", "addr", 46, -119⟩

def teamA : Team := ⟨"A", "", "WA", "98001", gTeamA⟩

def venueV : VenueRec := ⟨"Spokane, X", "Spokane", "X", gVenueV⟩

def c5RowCE : RaceRow := ⟨"2024", "4/13", "Spokane", "X"⟩

def c8Rows : List TeamRow := [⟨"A", "", "", "98001"⟩, ⟨"A", "", "", "98001"⟩]

def c7Distances : List (String × TeamEntry) := [("A", ⟨[], 5, 0, zeroSeasonTotals⟩)]

/-- A race row is processed only when all four trimmed fields are
non-empty (line 264 of the source). -/
def racesRowComplete (r : RaceRow) : Prop :=
  ¬(pyStrip r.city = "" ∨ pyStrip r.venue = "" ∨ pyStrip r.date = "" ∨
    pyStrip r.year = "")

instance (r : RaceRow) : Decidable (racesRowComplete r) := by
  unfold racesRowComplete; infer_instance

def rowCity (r : RaceRow) : String := pyStrip r.city

def rowVenue (r : RaceRow) : String :=
  standardize_venue_name (pyStrip r.city) (pyStrip r.venue)

def keyOfPair (p : String × String) : String := p.1 ++ ", " ++ p.2

def queryOfPair (p : String × String) : String := p.2 ++ ", " ++ p.1

def rowKey (r : RaceRow) : String := keyOfPair (rowCity r, rowVenue r)

def rowQuery (r : RaceRow) : String := queryOfPair (rowCity r, rowVenue r)

def keyCount (vs : List VenueRec) (k : String) : Nat :=
  (vs.filter (fun v => v.location_key = k)).length

/-- The external travel oracle gives equal answers on endpoint pairs the
six-decimal cache key cannot distinguish. -/
def KeyRespecting (dist : Geocoded → Geocoded → Option (ℚ × ℚ)) : Prop :=
  ∀ o1 d1 o2 d2, distCacheKey o1 d1 = distCacheKey o2 d2 → dist o1 d1 = dist o2 d2

/-- Every cached one-way value agrees with what the oracle returns for
any endpoint pair hashing to its key. -/
def CacheOK (dist : Geocoded → Geocoded → Option (ℚ × ℚ))
    (c : List ((Int × Int × Int × Int) × (ℚ × ℚ))) : Prop :=
  ∀ k p, alookup k c = some p → ∀ o d, distCacheKey o d = k → p = rawPair dist o d


def c3Entry : TeamEntry := ⟨[("Spokane, X", ⟨40, 1⟩)], 0, 0, zeroSeasonTotals⟩

def c3Distances : List (String × TeamEntry) := [("T", c3Entry)]

def c3Event : Event := ⟨"id", "2024", 4, 13, Season.Spring, "4/13", "Spokane, X"⟩

def c3Events : List Event := [c3Event, c3Event]

/-- Whether a fresh geocoding of query `q` would be accepted: 1 or 0. -/
def geoOkBit (ext : String → Option RawGeo) (q : String) : Nat :=
  match geoAccept ext q "WA" with
  | some _ => 1
  | none => 0

/-- The steady-state invariant of `races_loop` once the venue with
canonical pair `(cityK, venueK)` has been geocoded once: the cache holds
the outcome under that query's key, and the venue list holds the venue
exactly when the outcome was accepted. -/
def c5InvB (ext : String → Option RawGeo) (cityK venueK : String)
    (st : GeoState) (vs : List VenueRec) : Prop :=
  alookup (geoCacheKey (venueK ++ ", " ++ cityK) "WA") st.cache =
    some (geoAccept ext (venueK ++ ", " ++ cityK) "WA") ∧
  (vs.any (fun v => v.location_key = cityK ++ ", " ++ venueK)) =
    (geoAccept ext (venueK ++ ", " ++ cityK) "WA").isSome ∧
  keyCount vs (cityK ++ ", " ++ venueK) = geoOkBit ext (venueK ++ ", " ++ cityK)

def c5GeoW : Geocoded := ⟨"X, Spokane", "addr", 47, -120⟩

def c5EventW : Event :=
  ⟨"2024-04-13_Spokane_X", "2024", 4, 13, Season.Spring, "4/13", "Spokane, X"⟩

/-- The output of `process_races extInB emptyGeoState [c5RowCE, c5RowCE]`. -/
def c5OutW : List VenueRec × List Event × GeoState :=
  ([⟨"Spokane, X", "Spokane", "X", c5GeoW⟩], [c5EventW, c5EventW],
   ⟨[("X, Spokane|WA", some c5GeoW)], ["X, Spokane|WA"]⟩)

/-! # Theorems -/

/-! ## Association-list lemmas -/

theorem alookup_cons {κ α : Type} [DecidableEq κ] (k k1 : κ) (v : α)
    (l : List (κ × α)) :
    alookup k ((k1, v) :: l) = if k1 = k then some v else alookup k l := rfl

theorem upsert_fresh {κ α : Type} [DecidableEq κ] (k : κ) (v : α) :
    ∀ (l : List (κ × α)), (∀ p ∈ l, p.1 ≠ k) → upsert k v l = l ++ [(k, v)]
  | [], _ => rfl
  | (k1, v1) :: rest, h => by
    have hne : k1 ≠ k := h (k1, v1) (List.mem_cons_self _ _)
    simp only [upsert, if_neg hne, List.cons_append]
    rw [upsert_fresh k v rest (fun p hp => h p (List.mem_cons_of_mem _ hp))]

theorem alookup_map_of_mem {α : Type} [DecidableEq α] {β : Type} (g : α → β) :
    ∀ (l : List α) (a : α), a ∈ l →
      alookup a (l.map (fun x => (x, g x))) = some (g a)
  | [], a, ha => absurd ha (List.not_mem_nil a)
  | b :: bs, a, ha => by
    by_cases hba : b = a
    · subst hba; simp [alookup]
    · simp only [List.map_cons, alookup, if_neg hba]
      have ha2 : a ∈ bs := by
        rcases List.mem_cons.mp ha with h | h
        · exact absurd h.symm hba
        · exact h
      exact alookup_map_of_mem g bs a ha2

theorem alookup_map_key {α β : Type} (key : α → String) (g : α → β) :
    ∀ (l : List α) (a : α), a ∈ l → (l.map key).Nodup →
      alookup (key a) (l.map (fun x => (key x, g x))) = some (g a)
  | [], a, ha, _ => absurd ha (List.not_mem_nil a)
  | b :: bs, a, ha, hnd => by
    simp only [List.map_cons, List.nodup_cons] at hnd
    by_cases hba : key b = key a
    · have hab : a = b := by
        rcases List.mem_cons.mp ha with h | h
        · exact h
        · exact absurd (hba ▸ List.mem_map_of_mem key h) hnd.1
      subst hab
      simp [alookup]
    · simp only [List.map_cons, alookup, if_neg hba]
      have ha2 : a ∈ bs := by
        rcases List.mem_cons.mp ha with h | h
        · exact absurd (congrArg key h.symm) hba
        · exact h
      exact alookup_map_key key g bs a ha2 hnd.2

/-! ## String-key lemmas -/

theorem string_append_cancel (a b c : String) (h : a ++ c = b ++ c) : a = b := by
  have hd : a.data ++ c.data = b.data ++ c.data := by
    have := congrArg String.data h
    simpa [String.data_append] using this
  have : a.data = b.data := List.append_cancel_right hd
  cases a; cases b; simp_all

theorem geoCacheKey_inj (a b fs : String) (h : geoCacheKey a fs = geoCacheKey b fs) :
    a = b := by
  unfold geoCacheKey at h
  rw [String.append_assoc, String.append_assoc] at h
  exact string_append_cancel a b ("|" ++ fs) h

/-! ## C9: local-venue override, first match wins -/

/-- C9: `standardize_venue_name` resolves the `(local venue)` placeholder
through the city override table with first match winning: Winthrop maps
to Liberty Bell High School, and Ephrata maps to the Ephrata-specific
entry "Ephrata, WA", not an earlier default. -/
theorem c9_local_venue_override :
    standardize_venue_name "Winthrop" "(local venue)" = "Liberty Bell High School" ∧
    standardize_venue_name "Ephrata" "(local venue)" = "Ephrata, WA" := by
  constructor <;> rfl

/-! ## C7: derive_aggregates and the distances dict -/

/-- C7 counterexample: `derive_aggregates` does not leave the distances
dict unchanged — it overwrites each team's stored totals (here a
pre-existing `total_miles_events` of 5 is replaced by 0). -/
theorem c7_counterexample :
    (derive_aggregates c7Distances []).1 ≠ c7Distances := by decide

/-- C7 amended: `derive_aggregates` is a pure function returning the
aggregates, and it preserves every team's key and per-venue round-trip
map, but it does write the recomputed per-team totals into the matrix
entries it was given. -/
theorem c7_amended (distances : List (String × TeamEntry)) (events : List Event) :
    ((derive_aggregates distances events).1).map (fun p => (p.1, p.2.venues)) =
      distances.map (fun p => (p.1, p.2.venues)) := by
  unfold derive_aggregates
  rw [List.map_map]
  rfl

/-! ## C8: team-name uniqueness -/

theorem process_teams_names_sublist (ext : String → Option RawGeo) :
    ∀ (rows : List TeamRow) (st : GeoState),
      ((process_teams ext st rows).1.map (fun t => t.name)).Sublist
        (rows.map (fun r => pyStrip r.team))
  | [], st => by simp [process_teams]
  | r :: rs, st => by
    simp only [process_teams, List.map_cons]
    split
    · exact (process_teams_names_sublist ext rs st).cons _
    · split
      · exact List.Sublist.cons₂ _ (process_teams_names_sublist ext rs _)
      · exact (process_teams_names_sublist ext rs _).cons _

/-- C8 counterexample: two input rows carrying the same team name both
survive `process_teams` (no deduplication is performed), so the output
names are not pairwise distinct. -/
theorem c8_counterexample :
    ¬ (((process_teams extInB emptyGeoState c8Rows).1.map
        (fun t => t.name)).Nodup) := by decide

/-- C8 amended: the names of the teams produced by `process_teams` are a
sublist of the trimmed input names, so they are pairwise distinct
whenever the trimmed team names of the input rows are. -/
theorem c8_amended (ext : String → Option RawGeo) (st : GeoState)
    (rows : List TeamRow)
    (h : (rows.map (fun r => pyStrip r.team)).Nodup) :
    ((process_teams ext st rows).1.map (fun t => t.name)).Nodup :=
  h.sublist (process_teams_names_sublist ext rows st)

/-- Witness for the C8 amended theorem at a concrete input: two rows
with distinct names yield distinct output names. -/
theorem c8_amended_witness :
    (([⟨"A", "", "", "98001"⟩, ⟨"B", "", "", "98001"⟩] : List TeamRow).map
      (fun r => pyStrip r.team)).Nodup ∧
    ((process_teams extInB emptyGeoState
        [⟨"A", "", "", "98001"⟩, ⟨"B", "", "", "98001"⟩]).1.map
      (fun t => t.name)).Nodup :=
  ⟨by decide, c8_amended extInB emptyGeoState
    [⟨"A", "", "", "98001"⟩, ⟨"B", "", "", "98001"⟩] (by decide)⟩

/-! ## C10: event-date parsing is partial -/

theorem races_loop_isSome (ext : String → Option RawGeo) :
    ∀ (rs : List RaceRow) (st : GeoState) (vs : List VenueRec) (es : List Event),
      (races_loop ext rs st vs es).isSome ↔
        ∀ r ∈ rs, racesRowComplete r → (parse_mm_dd (pyStrip r.date)).isSome
  | [], st, vs, es => by simp [races_loop]
  | r :: rs, st, vs, es => by
    simp only [races_loop]
    by_cases hc : pyStrip r.city = "" ∨ pyStrip r.venue = "" ∨
        pyStrip r.date = "" ∨ pyStrip r.year = ""
    · rw [if_pos hc, races_loop_isSome ext rs st vs es]
      simp only [List.mem_cons, forall_eq_or_imp]
      constructor
      · intro h
        exact ⟨fun hcomp => absurd hc hcomp, h⟩
      · intro h
        exact h.2
    · rw [if_neg hc]
      have hcomp : racesRowComplete r := hc
      cases hp : parse_mm_dd (pyStrip r.date) with
      | none =>
        simp only [Option.isSome_none, Bool.false_eq_true, false_iff]
        intro h
        have h2 := h r (List.mem_cons_self r rs) hcomp
        rw [hp] at h2
        exact absurd h2 (by simp)
      | some md =>
        obtain ⟨m, d⟩ := md
        simp only [List.mem_cons, forall_eq_or_imp]
        constructor
        · intro h
          refine ⟨fun _ => by simp [hp], ?_⟩
          revert h
          split
          · intro h
            exact (races_loop_isSome ext rs _ _ _).mp h
          · split
            · intro h
              exact (races_loop_isSome ext rs _ _ _).mp h
            · intro h
              exact (races_loop_isSome ext rs _ _ _).mp h
        · intro h
          split
          · exact (races_loop_isSome ext rs _ _ _).mpr h.2
          · split
            · exact (races_loop_isSome ext rs _ _ _).mpr h.2
            · exact (races_loop_isSome ext rs _ _ _).mpr h.2

/-- C10: `process_races` completes without raising exactly when every
row with its four required fields present has a `Date` that
`parse_mm_dd` accepts — two "/"-separated integer tokens.  A present but
malformed date (e.g. "4/13/2024") aborts the whole run (`none`) instead
of skipping the row. -/
theorem c10_date_partiality (ext : String → Option RawGeo) (st : GeoState)
    (rows : List RaceRow) :
    (process_races ext st rows).isSome ↔
      ∀ r ∈ rows, racesRowComplete r → (parse_mm_dd (pyStrip r.date)).isSome :=
  races_loop_isSome ext rows st [] []

/-- Witness: a malformed date "4/13/2024" in an otherwise complete row
makes the whole run abort, by the C10 theorem. -/
theorem c10_witness :
    ¬ (process_races extInB emptyGeoState
        [⟨"2024", "4/13/2024", "Spokane", "X"⟩]).isSome := by
  rw [c10_date_partiality]
  intro h
  have h2 := h ⟨"2024", "4/13/2024", "Spokane", "X"⟩
    (List.mem_singleton_self _) (by decide)
  revert h2
  decide

/-! ## C6: geocode validation, bounding box, negative caching -/

/-- C6: on a fresh cache key, a geocoding result is accepted only when
the external response is a success whose coordinates lie inside the
configured bounding box (the returned value is exactly `geoAccept`); and
whenever the lookup is not accepted — in particular for an in-status but
out-of-bounds response, which is treated identically to a failed one —
the not-found outcome is cached under the same key and a repeated
identical `(query, force_state)` call returns the cached not-found with
no new external call (the state, including the external-call log, is
unchanged). -/
theorem c6_geocode_validation (ext : String → Option RawGeo) (st : GeoState)
    (q fs : String)
    (hfresh : alookup (geoCacheKey q fs) st.cache = none) :
    (geocode_location ext st q fs).1 = geoAccept ext q fs ∧
    (∀ g, (geocode_location ext st q fs).1 = some g →
      ∃ r, ext (augmentQuery q fs) = some r ∧ inBounds r = true) ∧
    (geoAccept ext q fs = none →
      geocode_location ext st q fs =
        (none, ⟨(geoCacheKey q fs, none) :: st.cache,
          st.callLog ++ [geoCacheKey q fs]⟩) ∧
      geocode_location ext
          ⟨(geoCacheKey q fs, none) :: st.cache,
            st.callLog ++ [geoCacheKey q fs]⟩ q fs =
        (none, ⟨(geoCacheKey q fs, none) :: st.cache,
          st.callLog ++ [geoCacheKey q fs]⟩)) := by
  simp only [geocode_location, geoAccept, hfresh]
  cases hext : ext (augmentQuery q fs) with
  | none =>
    dsimp only
    refine ⟨by trivial, ?_, ?_⟩
    · intro g hg
      exact absurd hg (by simp)
    · intro _
      refine ⟨rfl, ?_⟩
      simp [alookup]
  | some r =>
    dsimp only
    by_cases hb : inBounds r = true
    · simp only [if_pos hb]
      refine ⟨by trivial, ?_, ?_⟩
      · intro g _
        exact ⟨r, rfl, hb⟩
      · intro hnone
        exact absurd hnone (by simp)
    · simp only [if_neg hb]
      refine ⟨by trivial, ?_, ?_⟩
      · intro g hg
        exact absurd hg (by simp)
      · intro _
        refine ⟨by trivial, ?_⟩
        simp [alookup]

/-- Witness for C6 at a concrete input: an in-status response at (0, 0)
is outside the box, so the first call returns not-found and caches it,
and the repeated identical call returns the cached not-found without a
new external call. -/
theorem c6_witness :
    alookup (geoCacheKey "Nowhere" "WA") emptyGeoState.cache = none ∧
    (geocode_location extOOB emptyGeoState "Nowhere" "WA").1 = none ∧
    geocode_location extOOB
        ⟨[(geoCacheKey "Nowhere" "WA", none)], [geoCacheKey "Nowhere" "WA"]⟩
        "Nowhere" "WA" =
      (none, ⟨[(geoCacheKey "Nowhere" "WA", none)], [geoCacheKey "Nowhere" "WA"]⟩) := by
  have h := c6_geocode_validation extOOB emptyGeoState "Nowhere" "WA" (by decide)
  have hacc : geoAccept extOOB "Nowhere" "WA" = none := by decide
  have h3 := h.2.2 hacc
  refine ⟨by decide, ?_, ?_⟩
  · rw [h.1, hacc]
  · have := h3.2
    simpa [emptyGeoState] using this

/-! ## C1 / C2: the round-trip distance matrix -/

theorem dat_val (dist : Geocoded → Geocoded → Option (ℚ × ℚ))
    (st : DistState) (o d : Geocoded) (hC : CacheOK dist st.cache) :
    (distance_and_time dist st o d).1 = rawPair dist o d := by
  simp only [distance_and_time]
  cases hl : alookup (distCacheKey o d) st.cache with
  | some p =>
    dsimp only
    exact hC _ p hl o d rfl
  | none =>
    dsimp only
    cases hd : dist o d with
    | none => simp [rawPair, hd]
    | some ms => obtain ⟨m, s⟩ := ms; simp [rawPair, hd]

theorem dat_cache (dist : Geocoded → Geocoded → Option (ℚ × ℚ))
    (H : KeyRespecting dist) (st : DistState) (o d : Geocoded)
    (hC : CacheOK dist st.cache) :
    CacheOK dist (distance_and_time dist st o d).2.cache := by
  simp only [distance_and_time]
  cases hl : alookup (distCacheKey o d) st.cache with
  | some p =>
    dsimp only
    exact hC
  | none =>
    dsimp only
    have hnew : ∀ (val : ℚ × ℚ), val = rawPair dist o d →
        CacheOK dist ((distCacheKey o d, val) :: st.cache) := by
      intro val hval k p hlk o2 d2 hk2
      rw [alookup_cons] at hlk
      by_cases hkk : distCacheKey o d = k
      · rw [if_pos hkk] at hlk
        have hp : p = val := (Option.some.inj hlk).symm
        have hdd : dist o2 d2 = dist o d := H o2 d2 o d (hk2.trans hkk.symm)
        rw [hp, hval]
        unfold rawPair
        rw [hdd]
      · rw [if_neg hkk] at hlk
        exact hC k p hlk o2 d2 hk2
    cases hd : dist o d with
    | none =>
      exact hnew (0, 0) (by simp [rawPair, hd])
    | some ms =>
      obtain ⟨m, s⟩ := ms
      exact hnew _ (by simp [rawPair, hd])

theorem ctvdInner_spec (dist : Geocoded → Geocoded → Option (ℚ × ℚ))
    (H : KeyRespecting dist) (tg : Geocoded) :
    ∀ (venues : List VenueRec) (st : DistState) (acc : List (String × Pair)),
      CacheOK dist st.cache →
      (venues.map (fun v => v.location_key)).Nodup →
      (∀ v ∈ venues, ∀ p ∈ acc, p.1 ≠ v.location_key) →
      (ctvdInner dist tg venues st acc).1 =
        acc ++ venues.map
          (fun v => (v.location_key, rtPair (rawPair dist tg v.geocoded))) ∧
      CacheOK dist (ctvdInner dist tg venues st acc).2.cache
  | [], st, acc => by
    intro hC _ _
    simp only [ctvdInner, List.map_nil, List.append_nil]
    exact ⟨trivial, hC⟩
  | v :: rest, st, acc => by
    intro hC hnd hacc
    simp only [ctvdInner]
    have hval := dat_val dist st tg v.geocoded hC
    have hC1 := dat_cache dist H st tg v.geocoded hC
    have hup : upsert v.location_key
        (rtPair (distance_and_time dist st tg v.geocoded).1) acc =
        acc ++ [(v.location_key, rtPair (rawPair dist tg v.geocoded))] := by
      rw [hval]
      exact upsert_fresh _ _ acc
        (fun p hp => hacc v (List.mem_cons_self v rest) p hp)
    rw [hup]
    simp only [List.map_cons, List.nodup_cons] at hnd
    have hacc2 : ∀ w ∈ rest, ∀ p ∈
        acc ++ [(v.location_key, rtPair (rawPair dist tg v.geocoded))],
        p.1 ≠ w.location_key := by
      intro w hw p hp
      rcases List.mem_append.mp hp with hpa | hpb
      · exact hacc w (List.mem_cons_of_mem v hw) p hpa
      · have hpv : p = (v.location_key, rtPair (rawPair dist tg v.geocoded)) := by
          simpa using hpb
        have hpv : p.1 = v.location_key := by rw [hpv]
        rw [hpv]
        intro hcontra
        refine hnd.1 ?_
        rw [hcontra]
        exact List.mem_map_of_mem (fun x => x.location_key) hw
    have ih := ctvdInner_spec dist H tg rest
      (distance_and_time dist st tg v.geocoded).2
      (acc ++ [(v.location_key, rtPair (rawPair dist tg v.geocoded))])
      hC1 hnd.2 hacc2
    refine ⟨?_, ih.2⟩
    rw [ih.1]
    simp

theorem ctvdOuter_spec (dist : Geocoded → Geocoded → Option (ℚ × ℚ))
    (H : KeyRespecting dist) (venues : List VenueRec)
    (hndV : (venues.map (fun v => v.location_key)).Nodup) :
    ∀ (teams : List Team) (st : DistState) (acc : List (String × TeamEntry)),
      CacheOK dist st.cache →
      (teams.map (fun t => t.name)).Nodup →
      (∀ t ∈ teams, ∀ p ∈ acc, p.1 ≠ t.name) →
      (ctvdOuter dist venues teams st acc).1 =
        acc ++ teams.map (fun t => (t.name, freshTeamEntry (venues.map
          (fun v => (v.location_key, rtPair (rawPair dist t.geocoded v.geocoded))))))
  | [], st, acc => by
    intro hC _ _
    simp [ctvdOuter]
  | t :: ts, st, acc => by
    intro hC hnd hacc
    simp only [ctvdOuter]
    have hin := ctvdInner_spec dist H t.geocoded venues st [] hC hndV
      (fun _ _ p hp => absurd hp (List.not_mem_nil p))
    have hup : upsert t.name
        (freshTeamEntry (ctvdInner dist t.geocoded venues st []).1) acc =
        acc ++ [(t.name, freshTeamEntry (venues.map
          (fun v => (v.location_key, rtPair (rawPair dist t.geocoded v.geocoded)))))] := by
      rw [hin.1]
      simp only [List.nil_append]
      exact upsert_fresh _ _ acc
        (fun p hp => hacc t (List.mem_cons_self t ts) p hp)
    rw [hup]
    simp only [List.map_cons, List.nodup_cons] at hnd
    have hacc2 : ∀ w ∈ ts, ∀ p ∈
        acc ++ [(t.name, freshTeamEntry (venues.map
          (fun v => (v.location_key, rtPair (rawPair dist t.geocoded v.geocoded)))))],
        p.1 ≠ w.name := by
      intro w hw p hp
      rcases List.mem_append.mp hp with hpa | hpb
      · exact hacc w (List.mem_cons_of_mem t hw) p hpa
      · have hpv : p.1 = t.name := by
          have : p = (t.name, freshTeamEntry (venues.map
            (fun v => (v.location_key, rtPair (rawPair dist t.geocoded v.geocoded))))) := by
            simpa using hpb
          rw [this]
        rw [hpv]
        intro hcontra
        refine hnd.1 ?_
        rw [hcontra]
        exact List.mem_map_of_mem (fun x => x.name) hw
    have ih := ctvdOuter_spec dist H venues hndV ts
      (ctvdInner dist t.geocoded venues st []).2
      (acc ++ [(t.name, freshTeamEntry (venues.map
        (fun v => (v.location_key, rtPair (rawPair dist t.geocoded v.geocoded)))))])
      hin.2 hnd.2 hacc2
    rw [ih]
    simp

/-- Full characterisation of the matrix built by
`compute_team_venue_distances` starting from the empty per-run cache. -/
theorem ctvd_spec (dist : Geocoded → Geocoded → Option (ℚ × ℚ))
    (H : KeyRespecting dist) (teams : List Team) (venues : List VenueRec)
    (hndT : (teams.map (fun t => t.name)).Nodup)
    (hndV : (venues.map (fun v => v.location_key)).Nodup) :
    (compute_team_venue_distances dist teams venues emptyDistState).1 =
      teams.map (fun t => (t.name, freshTeamEntry (venues.map
        (fun v => (v.location_key, rtPair (rawPair dist t.geocoded v.geocoded)))))) := by
  unfold compute_team_venue_distances
  have h := ctvdOuter_spec dist H venues hndV teams emptyDistState []
    (fun k p hlk _ _ _ => absurd hlk (by simp [emptyDistState, alookup]))
    hndT (fun _ _ p hp => absurd hp (List.not_mem_nil p))
  simpa using h

theorem sum_map_const {α : Type} : ∀ (l : List α) (c : Nat),
    (l.map (fun _ => c)).sum = l.length * c
  | [], c => by simp
  | x :: xs, c => by
    simp [sum_map_const xs c]
    ring

/-- C1: for teams and venues with pairwise-distinct names and location
keys (as the pipeline's data model stipulates), and a travel oracle that
cannot distinguish endpoint pairs agreeing to six decimal places (the
cache-key resolution), a successful lookup returning `m` meters and `s`
seconds is stored in the matrix as exactly
`round1 (2 * (m / 1609.34))` miles and `round2 (2 * (s / 3600))` hours:
the round trip is twice the converted one-way value. -/
theorem c1_roundtrip_matrix (dist : Geocoded → Geocoded → Option (ℚ × ℚ))
    (teams : List Team) (venues : List VenueRec) (t : Team) (v : VenueRec)
    (m s : ℚ) (H : KeyRespecting dist)
    (hndT : (teams.map (fun t => t.name)).Nodup)
    (hndV : (venues.map (fun v => v.location_key)).Nodup)
    (ht : t ∈ teams) (hv : v ∈ venues)
    (hd : dist t.geocoded v.geocoded = some (m, s)) :
    ∃ e, alookup t.name
        (compute_team_venue_distances dist teams venues emptyDistState).1 =
          some e ∧
      alookup v.location_key e.venues =
        some ⟨round1 (2 * (m / METERS_PER_MILE)), round2 (2 * (s / 3600))⟩ := by
  rw [ctvd_spec dist H teams venues hndT hndV]
  refine ⟨_, alookup_map_key (fun t => t.name) _ teams t ht hndT, ?_⟩
  show alookup v.location_key (venues.map
    (fun v => (v.location_key, rtPair (rawPair dist t.geocoded v.geocoded)))) = _
  rw [alookup_map_key (fun v => v.location_key)
    (fun v => rtPair (rawPair dist t.geocoded v.geocoded)) venues v hv hndV]
  have hraw : rawPair dist t.geocoded v.geocoded = (m / METERS_PER_MILE, s / 3600) := by
    unfold rawPair
    rw [hd]
  rw [hraw]
  unfold rtPair
  rw [mul_comm (m / METERS_PER_MILE) 2, mul_comm (s / 3600) 2]

/-- Witness for C1 at a concrete run: one team, one venue, a lookup
delivering 160934 meters (100 miles) and 5400 seconds (1.5 hours) is
stored as the 200-mile, 3-hour round trip. -/
theorem c1_witness :
    (∃ e, alookup "A"
        (compute_team_venue_distances distConst [teamA] [venueV] emptyDistState).1 =
          some e ∧
      alookup "Spokane, X" e.venues =
        some ⟨round1 (2 * ((160934 : ℚ) / METERS_PER_MILE)),
          round2 (2 * ((5400 : ℚ) / 3600))⟩) ∧
    round1 (2 * ((160934 : ℚ) / METERS_PER_MILE)) = 200 ∧
    round2 (2 * ((5400 : ℚ) / 3600)) = 3 :=
  ⟨c1_roundtrip_matrix distConst [teamA] [venueV] teamA venueV 160934 5400
    (fun _ _ _ _ _ => rfl) (by decide) (by decide) (by simp) (by simp) rfl,
   by decide, by decide⟩

/-- C2: under the same data-model hypotheses as C1, the matrix holds one
entry per (team, venue) pair of the cartesian product —
`|teams| * |venues|` pair entries in total — and a pair whose travel
lookup failed is present with value `(0.0, 0.0)` rather than absent. -/
theorem c2_matrix_shape (dist : Geocoded → Geocoded → Option (ℚ × ℚ))
    (teams : List Team) (venues : List VenueRec) (H : KeyRespecting dist)
    (hndT : (teams.map (fun t => t.name)).Nodup)
    (hndV : (venues.map (fun v => v.location_key)).Nodup) :
    ((compute_team_venue_distances dist teams venues emptyDistState).1.map
      (fun p => p.2.venues.length)).sum = teams.length * venues.length ∧
    ∀ t ∈ teams, ∃ e,
      alookup t.name
        (compute_team_venue_distances dist teams venues emptyDistState).1 =
          some e ∧
      ∀ v ∈ venues, ∃ pr, alookup v.location_key e.venues = some pr ∧
        (dist t.geocoded v.geocoded = none → pr = zeroPair) := by
  rw [ctvd_spec dist H teams venues hndT hndV]
  constructor
  · rw [List.map_map]
    have hfun : ((fun p : String × TeamEntry => p.2.venues.length) ∘
        (fun t : Team => (t.name, freshTeamEntry (venues.map
          (fun v => (v.location_key, rtPair (rawPair dist t.geocoded v.geocoded))))))) =
        fun _ => venues.length := by
      funext x
      simp [freshTeamEntry]
    rw [hfun, sum_map_const]
  · intro t ht
    refine ⟨_, alookup_map_key (fun t => t.name) _ teams t ht hndT, ?_⟩
    intro v hv
    refine ⟨_, alookup_map_key (fun v => v.location_key)
      (fun v => rtPair (rawPair dist t.geocoded v.geocoded)) venues v hv hndV, ?_⟩
    intro hnone
    have hraw : rawPair dist t.geocoded v.geocoded = (0, 0) := by
      unfold rawPair
      rw [hnone]
    rw [hraw]
    decide

/-- Witness for C2 at a concrete run whose travel lookup always fails:
the single pair is present and zero-filled. -/
theorem c2_witness :
    ((compute_team_venue_distances distFail [teamA] [venueV] emptyDistState).1.map
      (fun p => p.2.venues.length)).sum = [teamA].length * [venueV].length ∧
    ∀ t ∈ [teamA], ∃ e,
      alookup t.name
        (compute_team_venue_distances distFail [teamA] [venueV] emptyDistState).1 =
          some e ∧
      ∀ v ∈ [venueV], ∃ pr, alookup v.location_key e.venues = some pr ∧
        (distFail t.geocoded v.geocoded = none → pr = zeroPair) :=
  c2_matrix_shape distFail [teamA] [venueV]
    (fun _ _ _ _ _ => rfl) (by decide) (by decide)

/-! ## C3: venue totals weighted by event counts -/

theorem foldl_add_sum {α : Type} (f : α → ℚ) :
    ∀ (l : List α) (init : ℚ),
      l.foldl (fun acc x => acc + f x) init = init + (l.map f).sum
  | [], init => by simp
  | x :: xs, init => by
    simp only [List.foldl_cons, List.map_cons, List.sum_cons]
    rw [foldl_add_sum f xs]
    ring

theorem mem_firstDedup : ∀ (xs : List String) (a : String),
    a ∈ firstDedup xs ↔ a ∈ xs
  | [], a => by simp [firstDedup]
  | x :: rest, a => by
    simp only [firstDedup, List.mem_cons, List.mem_filter, decide_eq_true_eq,
      mem_firstDedup rest a]
    by_cases hax : a = x
    · simp [hax]
    · simp [hax]

theorem venueMilesTotal_eq (d : List (String × TeamEntry)) (k : String) (c : Nat) :
    venueMilesTotal d k c =
      (d.map (fun p => (getPair p.2.venues k).miles * c)).sum := by
  unfold venueMilesTotal
  rw [foldl_add_sum (fun p => (getPair p.2.venues k).miles * c) d 0]
  ring

theorem venueHoursTotal_eq (d : List (String × TeamEntry)) (k : String) (c : Nat) :
    venueHoursTotal d k c =
      (d.map (fun p => (getPair p.2.venues k).hours * c)).sum := by
  unfold venueHoursTotal
  rw [foldl_add_sum (fun p => (getPair p.2.venues k).hours * c) d 0]
  ring

theorem alookup_counter_map {β : Type} (f : String → Nat → β) (xs : List String)
    (k : String) (hk : k ∈ xs) :
    alookup k ((counterItems xs).map (fun kc => (kc.1, f kc.1 kc.2))) =
      some (f k (xs.count k)) := by
  unfold counterItems
  rw [List.map_map]
  exact alookup_map_of_mem (fun a => f a (xs.count a)) (firstDedup xs) k
    ((mem_firstDedup xs k).mpr hk)

theorem da_vtm (d : List (String × TeamEntry)) (es : List Event) :
    (derive_aggregates d es).2.venue_total_miles =
      (counterItems (es.map (fun e => e.location_key))).map
        (fun kc => (kc.1, round1 (venueMilesTotal d kc.1 kc.2))) := rfl

theorem da_vth (d : List (String × TeamEntry)) (es : List Event) :
    (derive_aggregates d es).2.venue_total_hours =
      (counterItems (es.map (fun e => e.location_key))).map
        (fun kc => (kc.1, round2 (venueHoursTotal d kc.1 kc.2))) := rfl

theorem da_vtmS (d : List (String × TeamEntry)) (es : List Event) (s : Season) :
    (derive_aggregates d es).2.venue_total_miles_by_season s =
      (counterItems ((es.filter (fun e => e.season = s)).map
        (fun e => e.location_key))).map
        (fun kc => (kc.1, round1 (venueMilesTotal d kc.1 kc.2))) := rfl

theorem da_vthS (d : List (String × TeamEntry)) (es : List Event) (s : Season) :
    (derive_aggregates d es).2.venue_total_hours_by_season s =
      (counterItems ((es.filter (fun e => e.season = s)).map
        (fun e => e.location_key))).map
        (fun kc => (kc.1, round2 (venueHoursTotal d kc.1 kc.2))) := rfl

/-- C3: for every matrix and event list, a venue's aggregated overall
total equals the sum over all teams of that team's round-trip pair value
for the venue multiplied by the venue's event count (then rounded), and
the per-season totals use the same formula with season-filtered event
counts. -/
theorem c3_venue_totals (distances : List (String × TeamEntry))
    (events : List Event) (k : String)
    (hk : ∃ e ∈ events, e.location_key = k) :
    (alookup k (derive_aggregates distances events).2.venue_total_miles =
      some (round1 ((distances.map (fun p =>
        (getPair p.2.venues k).miles *
          ((events.map (fun e => e.location_key)).count k))).sum)) ∧
     alookup k (derive_aggregates distances events).2.venue_total_hours =
      some (round2 ((distances.map (fun p =>
        (getPair p.2.venues k).hours *
          ((events.map (fun e => e.location_key)).count k))).sum))) ∧
    (∀ s : Season, (∃ e ∈ events, e.season = s ∧ e.location_key = k) →
      alookup k ((derive_aggregates distances events).2.venue_total_miles_by_season s) =
        some (round1 ((distances.map (fun p =>
          (getPair p.2.venues k).miles *
            (((events.filter (fun e => e.season = s)).map
              (fun e => e.location_key)).count k))).sum)) ∧
      alookup k ((derive_aggregates distances events).2.venue_total_hours_by_season s) =
        some (round2 ((distances.map (fun p =>
          (getPair p.2.venues k).hours *
            (((events.filter (fun e => e.season = s)).map
              (fun e => e.location_key)).count k))).sum))) := by
  obtain ⟨e0, he0, hke0⟩ := hk
  have hmem : k ∈ events.map (fun e => e.location_key) :=
    List.mem_map.mpr ⟨e0, he0, hke0⟩
  refine ⟨⟨?_, ?_⟩, ?_⟩
  · rw [da_vtm, alookup_counter_map
      (fun a c => round1 (venueMilesTotal distances a c)) _ k hmem,
      venueMilesTotal_eq]
  · rw [da_vth, alookup_counter_map
      (fun a c => round2 (venueHoursTotal distances a c)) _ k hmem,
      venueHoursTotal_eq]
  · intro s hs
    obtain ⟨e1, he1, hs1, hk1⟩ := hs
    have hmemS : k ∈ (events.filter (fun e => e.season = s)).map
        (fun e => e.location_key) :=
      List.mem_map.mpr ⟨e1, List.mem_filter.mpr ⟨he1, by simp [hs1]⟩, hk1⟩
    constructor
    · rw [da_vtmS, alookup_counter_map
        (fun a c => round1 (venueMilesTotal distances a c)) _ k hmemS,
        venueMilesTotal_eq]
    · rw [da_vthS, alookup_counter_map
        (fun a c => round2 (venueHoursTotal distances a c)) _ k hmemS,
        venueHoursTotal_eq]


/-- Witness for C3: a venue hosting exactly 2 Spring events and no
others, with a team pair value of 40 miles, receives a Spring total (and
an overall total) of exactly 80 miles. -/
theorem c3_witness :
    alookup "Spokane, X"
      ((derive_aggregates c3Distances c3Events).2.venue_total_miles_by_season
        Season.Spring) = some 80 ∧
    alookup "Spokane, X"
      (derive_aggregates c3Distances c3Events).2.venue_total_miles = some 80 := by
  have h := c3_venue_totals c3Distances c3Events "Spokane, X"
    ⟨c3Event, by simp [c3Events], rfl⟩
  have h2 := (h.2 Season.Spring ⟨c3Event, by simp [c3Events], rfl, rfl⟩).1
  constructor
  · rw [h2]
    decide
  · rw [h.1.1]
    decide

/-! ## C4: per-team season totals sum to the overall total -/

theorem aggStep_inv (vmap : List (String × Pair)) :
    ∀ (es : List Event) (a : ℚ × ℚ × SeasonTotals),
      ((es.foldl (aggStep vmap) a).2.2.spring.miles +
        (es.foldl (aggStep vmap) a).2.2.fall.miles +
        (es.foldl (aggStep vmap) a).2.2.other.miles) -
          (es.foldl (aggStep vmap) a).1 =
        (a.2.2.spring.miles + a.2.2.fall.miles + a.2.2.other.miles) - a.1 ∧
      ((es.foldl (aggStep vmap) a).2.2.spring.hours +
        (es.foldl (aggStep vmap) a).2.2.fall.hours +
        (es.foldl (aggStep vmap) a).2.2.other.hours) -
          (es.foldl (aggStep vmap) a).2.1 =
        (a.2.2.spring.hours + a.2.2.fall.hours + a.2.2.other.hours) - a.2.1
  | [], a => ⟨rfl, rfl⟩
  | e :: es, a => by
    simp only [List.foldl_cons]
    have ih := aggStep_inv vmap es (aggStep vmap a e)
    refine ⟨?_, ?_⟩
    · rw [ih.1]
      cases hs : e.season <;> simp [aggStep, addToSeason, hs] <;> ring
    · rw [ih.2]
      cases hs : e.season <;> simp [aggStep, addToSeason, hs] <;> ring

theorem roundHalfUp_eq_round (q : ℚ) : roundHalfUp q = round q := by
  rw [round_eq, roundHalfUp, zfloor, Rat.floor_def]

theorem round1_close (q : ℚ) : |round1 q - q| ≤ 1 / 20 := by
  rw [round1, roundHalfUp_eq_round]
  have h := abs_sub_round (q * 10)
  rw [abs_sub_comm] at h
  have h2 : |((round (q * 10) : ℤ) : ℚ) / 10 - q| =
      |((round (q * 10) : ℤ) : ℚ) - q * 10| / 10 := by
    rw [← abs_of_pos (show (0 : ℚ) < 10 by norm_num), ← abs_div]
    congr 1
    field_simp
    ring
  rw [h2]
  linarith

theorem round2_close (q : ℚ) : |round2 q - q| ≤ 1 / 200 := by
  rw [round2, roundHalfUp_eq_round]
  have h := abs_sub_round (q * 100)
  rw [abs_sub_comm] at h
  have h2 : |((round (q * 100) : ℤ) : ℚ) / 100 - q| =
      |((round (q * 100) : ℤ) : ℚ) - q * 100| / 100 := by
    rw [← abs_of_pos (show (0 : ℚ) < 100 by norm_num), ← abs_div]
    congr 1
    field_simp
    ring
  rw [h2]
  linarith

theorem da_fst (d : List (String × TeamEntry)) (es : List Event) :
    (derive_aggregates d es).1 = d.map (fun p => (p.1, teamAgg es p.2)) := rfl

/-- C4: after aggregation, each team's three per-season totals sum to its
overall total up to the rounding applied to each stored figure (every
event falls in exactly one season bucket): within 0.2 for miles (four
figures each rounded to one decimal) and 0.02 for hours. -/
theorem c4_season_sum (distances : List (String × TeamEntry))
    (events : List Event) (tn : String) (e : TeamEntry)
    (hmem : (tn, e) ∈ (derive_aggregates distances events).1) :
    |e.season_totals.spring.miles + e.season_totals.fall.miles +
      e.season_totals.other.miles - e.total_miles_events| ≤ 2 / 10 ∧
    |e.season_totals.spring.hours + e.season_totals.fall.hours +
      e.season_totals.other.hours - e.total_hours_events| ≤ 2 / 100 := by
  rw [da_fst] at hmem
  obtain ⟨p, hp, heq⟩ := List.mem_map.mp hmem
  have he : teamAgg events p.2 = e := congrArg Prod.snd heq
  subst he
  have hinv := aggStep_inv p.2.venues events (0, 0, zeroSeasonTotals)
  constructor
  · show |round1 _ + round1 _ + round1 _ - round1 _| ≤ 2 / 10
    have hz : ((((0 : ℚ), (0 : ℚ), zeroSeasonTotals) :
          ℚ × ℚ × SeasonTotals).2.2.spring.miles +
        (((0 : ℚ), (0 : ℚ), zeroSeasonTotals) :
          ℚ × ℚ × SeasonTotals).2.2.fall.miles +
        (((0 : ℚ), (0 : ℚ), zeroSeasonTotals) :
          ℚ × ℚ × SeasonTotals).2.2.other.miles) -
        (((0 : ℚ), (0 : ℚ), zeroSeasonTotals) : ℚ × ℚ × SeasonTotals).1 = 0 := by
      norm_num [zeroSeasonTotals, zeroPair]
    have hsum := sub_eq_zero.mp (hinv.1.trans hz)
    have e1 := round1_close (events.foldl (aggStep p.2.venues)
      (0, 0, zeroSeasonTotals)).2.2.spring.miles
    have e2 := round1_close (events.foldl (aggStep p.2.venues)
      (0, 0, zeroSeasonTotals)).2.2.fall.miles
    have e3 := round1_close (events.foldl (aggStep p.2.venues)
      (0, 0, zeroSeasonTotals)).2.2.other.miles
    have e4 := round1_close (events.foldl (aggStep p.2.venues)
      (0, 0, zeroSeasonTotals)).1
    rw [abs_le] at e1 e2 e3 e4 ⊢
    constructor
    · linarith [e1.1, e2.1, e3.1, e4.2, hsum]
    · linarith [e1.2, e2.2, e3.2, e4.1, hsum]
  · show |round2 _ + round2 _ + round2 _ - round2 _| ≤ 2 / 100
    have hz : ((((0 : ℚ), (0 : ℚ), zeroSeasonTotals) :
          ℚ × ℚ × SeasonTotals).2.2.spring.hours +
        (((0 : ℚ), (0 : ℚ), zeroSeasonTotals) :
          ℚ × ℚ × SeasonTotals).2.2.fall.hours +
        (((0 : ℚ), (0 : ℚ), zeroSeasonTotals) :
          ℚ × ℚ × SeasonTotals).2.2.other.hours) -
        (((0 : ℚ), (0 : ℚ), zeroSeasonTotals) : ℚ × ℚ × SeasonTotals).2.1 = 0 := by
      norm_num [zeroSeasonTotals, zeroPair]
    have hsum := sub_eq_zero.mp (hinv.2.trans hz)
    have e1 := round2_close (events.foldl (aggStep p.2.venues)
      (0, 0, zeroSeasonTotals)).2.2.spring.hours
    have e2 := round2_close (events.foldl (aggStep p.2.venues)
      (0, 0, zeroSeasonTotals)).2.2.fall.hours
    have e3 := round2_close (events.foldl (aggStep p.2.venues)
      (0, 0, zeroSeasonTotals)).2.2.other.hours
    have e4 := round2_close (events.foldl (aggStep p.2.venues)
      (0, 0, zeroSeasonTotals)).2.1
    rw [abs_le] at e1 e2 e3 e4 ⊢
    constructor
    · linarith [e1.1, e2.1, e3.1, e4.2, hsum]
    · linarith [e1.2, e2.2, e3.2, e4.1, hsum]

/-- Witness for C4 at a concrete input. -/
theorem c4_witness :
    |(teamAgg c3Events c3Entry).season_totals.spring.miles +
      (teamAgg c3Events c3Entry).season_totals.fall.miles +
      (teamAgg c3Events c3Entry).season_totals.other.miles -
      (teamAgg c3Events c3Entry).total_miles_events| ≤ 2 / 10 ∧
    |(teamAgg c3Events c3Entry).season_totals.spring.hours +
      (teamAgg c3Events c3Entry).season_totals.fall.hours +
      (teamAgg c3Events c3Entry).season_totals.other.hours -
      (teamAgg c3Events c3Entry).total_hours_events| ≤ 2 / 100 :=
  c4_season_sum c3Distances c3Events "T" (teamAgg c3Events c3Entry)
    (by rw [da_fst]; exact List.mem_cons_self _ _)

/-! ## C5: one geocoding call and one Venue per distinct location key -/

theorem geocode_hit (ext : String → Option RawGeo) (st : GeoState)
    (q1 fs : String) (v : Option Geocoded)
    (h : alookup (geoCacheKey q1 fs) st.cache = some v) :
    geocode_location ext st q1 fs = (v, st) := by
  simp only [geocode_location, h]

theorem geocode_fresh (ext : String → Option RawGeo) (st : GeoState)
    (q1 fs : String)
    (hfresh : alookup (geoCacheKey q1 fs) st.cache = none) :
    geocode_location ext st q1 fs =
      (geoAccept ext q1 fs,
       ⟨(geoCacheKey q1 fs, geoAccept ext q1 fs) :: st.cache,
        st.callLog ++ [geoCacheKey q1 fs]⟩) := by
  simp only [geocode_location, geoAccept, hfresh]
  cases ext (augmentQuery q1 fs) with
  | none => rfl
  | some r =>
    dsimp only
    by_cases hb : inBounds r = true
    · simp only [if_pos hb]
    · simp only [if_neg hb]

theorem count_append_one_ne (l : List String) (a b : String) (h : a ≠ b) :
    (l ++ [a]).count b = l.count b := by
  rw [List.count_append]
  have h0 : List.count b [a] = 0 := by
    simp [List.count_cons, h, Ne.symm h]
  rw [h0]
  omega

theorem count_append_one_self (l : List String) (a : String) :
    (l ++ [a]).count a = l.count a + 1 := by
  simp

theorem keyCount_append (vs : List VenueRec) (w : VenueRec) (k : String) :
    keyCount (vs ++ [w]) k =
      keyCount vs k + (if w.location_key = k then 1 else 0) := by
  unfold keyCount
  rw [List.filter_append, List.length_append]
  congr 1
  by_cases h : w.location_key = k <;> simp [h]

theorem any_append_w (vs : List VenueRec) (w : VenueRec) (k : String) :
    ((vs ++ [w]).any (fun v => v.location_key = k)) =
      ((vs.any (fun v => v.location_key = k)) || decide (w.location_key = k)) := by
  simp [List.any_append]

theorem races_loopB (ext : String → Option RawGeo) (cityK venueK : String) :
    ∀ (rs : List RaceRow) (st : GeoState) (vs : List VenueRec) (es : List Event)
      (out : List VenueRec × List Event × GeoState),
      (∀ r ∈ rs, racesRowComplete r →
        pyStrip r.city ++ ", " ++
            standardize_venue_name (pyStrip r.city) (pyStrip r.venue) =
          cityK ++ ", " ++ venueK →
        pyStrip r.city = cityK ∧
          standardize_venue_name (pyStrip r.city) (pyStrip r.venue) = venueK) →
      (∀ r ∈ rs, racesRowComplete r →
        ¬(pyStrip r.city = cityK ∧
          standardize_venue_name (pyStrip r.city) (pyStrip r.venue) = venueK) →
        standardize_venue_name (pyStrip r.city) (pyStrip r.venue) ++ ", " ++
            pyStrip r.city ≠ venueK ++ ", " ++ cityK) →
      c5InvB ext cityK venueK st vs →
      races_loop ext rs st vs es = some out →
      out.2.2.callLog.count (geoCacheKey (venueK ++ ", " ++ cityK) "WA") =
        st.callLog.count (geoCacheKey (venueK ++ ", " ++ cityK) "WA") ∧
      keyCount out.1 (cityK ++ ", " ++ venueK) =
        keyCount vs (cityK ++ ", " ++ venueK)
  | [], st, vs, es, out => by
    intro _ _ _ hrun
    simp only [races_loop] at hrun
    obtain rfl : (vs, es, st) = out := Option.some.inj hrun
    exact ⟨rfl, rfl⟩
  | r :: rs, st, vs, es, out => by
    intro H2 H3 hinv hrun
    have H2' := fun r' hr' => H2 r' (List.mem_cons_of_mem r hr')
    have H3' := fun r' hr' => H3 r' (List.mem_cons_of_mem r hr')
    simp only [races_loop] at hrun
    by_cases hcomp : racesRowComplete r
    · rw [if_neg hcomp] at hrun
      cases hp : parse_mm_dd (pyStrip r.date) with
      | none =>
        rw [hp] at hrun
        exact absurd hrun (by simp)
      | some md =>
        obtain ⟨m, d⟩ := md
        rw [hp] at hrun
        dsimp only at hrun
        by_cases hK : pyStrip r.city = cityK ∧
            standardize_venue_name (pyStrip r.city) (pyStrip r.venue) = venueK
        · rw [hK.2, hK.1] at hrun
          by_cases hany : vs.any
              (fun v => v.location_key = cityK ++ ", " ++ venueK) = true
          · rw [if_pos hany] at hrun
            exact races_loopB ext cityK venueK rs st vs _ out H2' H3' hinv hrun
          · rw [if_neg hany] at hrun
            have hanyF : vs.any
                (fun v => v.location_key = cityK ++ ", " ++ venueK) = false := by
              cases h : vs.any (fun v => v.location_key = cityK ++ ", " ++ venueK)
              · rfl
              · exact absurd h hany
            have hisF : (geoAccept ext (venueK ++ ", " ++ cityK) "WA").isSome
                = false := by
              rw [← hinv.2.1, hanyF]
            have haccN : geoAccept ext (venueK ++ ", " ++ cityK) "WA" = none := by
              cases hacc : geoAccept ext (venueK ++ ", " ++ cityK) "WA"
              · rfl
              · rw [hacc] at hisF
                exact absurd hisF (by simp)
            rw [geocode_hit ext st (venueK ++ ", " ++ cityK) "WA" _ hinv.1,
              haccN] at hrun
            dsimp only at hrun
            exact races_loopB ext cityK venueK rs st vs _ out H2' H3' hinv hrun
        · have hkne : pyStrip r.city ++ ", " ++
              standardize_venue_name (pyStrip r.city) (pyStrip r.venue) ≠
              cityK ++ ", " ++ venueK :=
            fun h => hK (H2 r (List.mem_cons_self r rs) hcomp h)
          have hqne := H3 r (List.mem_cons_self r rs) hcomp hK
          have hckne : geoCacheKey
              (standardize_venue_name (pyStrip r.city) (pyStrip r.venue) ++ ", " ++
                pyStrip r.city) "WA" ≠
              geoCacheKey (venueK ++ ", " ++ cityK) "WA" :=
            fun h => hqne (geoCacheKey_inj _ _ _ h)
          by_cases hany : vs.any (fun v => v.location_key =
              pyStrip r.city ++ ", " ++
                standardize_venue_name (pyStrip r.city) (pyStrip r.venue)) = true
          · rw [if_pos hany] at hrun
            exact races_loopB ext cityK venueK rs st vs _ out H2' H3' hinv hrun
          · rw [if_neg hany] at hrun
            cases halk : alookup (geoCacheKey
                (standardize_venue_name (pyStrip r.city) (pyStrip r.venue) ++
                  ", " ++ pyStrip r.city) "WA") st.cache with
            | some v =>
              rw [geocode_hit ext st _ "WA" v halk] at hrun
              cases v with
              | none =>
                dsimp only at hrun
                exact races_loopB ext cityK venueK rs st vs _ out H2' H3' hinv hrun
              | some geo =>
                dsimp only at hrun
                have hinv2 : c5InvB ext cityK venueK st (vs ++
                    [⟨pyStrip r.city ++ ", " ++
                      standardize_venue_name (pyStrip r.city) (pyStrip r.venue),
                      pyStrip r.city,
                      standardize_venue_name (pyStrip r.city) (pyStrip r.venue),
                      geo⟩]) := by
                  refine ⟨hinv.1, ?_, ?_⟩
                  · rw [any_append_w]
                    simp only [decide_eq_false hkne, Bool.or_false]
                    exact hinv.2.1
                  · rw [keyCount_append]
                    simp only [if_neg hkne, Nat.add_zero]
                    exact hinv.2.2
                have hres := races_loopB ext cityK venueK rs st _ _ out
                  H2' H3' hinv2 hrun
                refine ⟨hres.1, ?_⟩
                rw [hres.2, keyCount_append]
                simp only [if_neg hkne, Nat.add_zero]
            | none =>
              rw [geocode_fresh ext st _ "WA" halk] at hrun
              cases hacc2 : geoAccept ext
                  (standardize_venue_name (pyStrip r.city) (pyStrip r.venue) ++
                    ", " ++ pyStrip r.city) "WA" with
              | none =>
                rw [hacc2] at hrun
                dsimp only at hrun
                have hinv2 : c5InvB ext cityK venueK
                    ⟨(geoCacheKey (standardize_venue_name (pyStrip r.city)
                        (pyStrip r.venue) ++ ", " ++ pyStrip r.city) "WA",
                      none) :: st.cache,
                     st.callLog ++ [geoCacheKey (standardize_venue_name
                        (pyStrip r.city) (pyStrip r.venue) ++ ", " ++
                        pyStrip r.city) "WA"]⟩ vs := by
                  refine ⟨?_, hinv.2.1, hinv.2.2⟩
                  rw [alookup_cons, if_neg hckne]
                  exact hinv.1
                have hres := races_loopB ext cityK venueK rs _ vs _ out
                  H2' H3' hinv2 hrun
                refine ⟨?_, hres.2⟩
                rw [hres.1]
                exact count_append_one_ne st.callLog _ _ hckne
              | some geo =>
                rw [hacc2] at hrun
                dsimp only at hrun
                have hinv2 : c5InvB ext cityK venueK
                    ⟨(geoCacheKey (standardize_venue_name (pyStrip r.city)
                        (pyStrip r.venue) ++ ", " ++ pyStrip r.city) "WA",
                      some geo) :: st.cache,
                     st.callLog ++ [geoCacheKey (standardize_venue_name
                        (pyStrip r.city) (pyStrip r.venue) ++ ", " ++
                        pyStrip r.city) "WA"]⟩
                    (vs ++ [⟨pyStrip r.city ++ ", " ++
                      standardize_venue_name (pyStrip r.city) (pyStrip r.venue),
                      pyStrip r.city,
                      standardize_venue_name (pyStrip r.city) (pyStrip r.venue),
                      geo⟩]) := by
                  refine ⟨?_, ?_, ?_⟩
                  · rw [alookup_cons, if_neg hckne]
                    exact hinv.1
                  · rw [any_append_w]
                    simp only [decide_eq_false hkne, Bool.or_false]
                    exact hinv.2.1
                  · rw [keyCount_append]
                    simp only [if_neg hkne, Nat.add_zero]
                    exact hinv.2.2
                have hres := races_loopB ext cityK venueK rs _ _ _ out
                  H2' H3' hinv2 hrun
                refine ⟨?_, ?_⟩
                · rw [hres.1]
                  exact count_append_one_ne st.callLog _ _ hckne
                · rw [hres.2, keyCount_append]
                  simp only [if_neg hkne, Nat.add_zero]
    · rw [if_pos (not_not.mp hcomp)] at hrun
      exact races_loopB ext cityK venueK rs st vs _ out H2' H3' hinv hrun

theorem races_loopA (ext : String → Option RawGeo) (cityK venueK : String) :
    ∀ (rs : List RaceRow) (st : GeoState) (vs : List VenueRec) (es : List Event)
      (out : List VenueRec × List Event × GeoState),
      (∀ r ∈ rs, racesRowComplete r →
        pyStrip r.city ++ ", " ++
            standardize_venue_name (pyStrip r.city) (pyStrip r.venue) =
          cityK ++ ", " ++ venueK →
        pyStrip r.city = cityK ∧
          standardize_venue_name (pyStrip r.city) (pyStrip r.venue) = venueK) →
      (∀ r ∈ rs, racesRowComplete r →
        ¬(pyStrip r.city = cityK ∧
          standardize_venue_name (pyStrip r.city) (pyStrip r.venue) = venueK) →
        standardize_venue_name (pyStrip r.city) (pyStrip r.venue) ++ ", " ++
            pyStrip r.city ≠ venueK ++ ", " ++ cityK) →
      alookup (geoCacheKey (venueK ++ ", " ++ cityK) "WA") st.cache = none →
      (vs.any (fun v => v.location_key = cityK ++ ", " ++ venueK)) = false →
      keyCount vs (cityK ++ ", " ++ venueK) = 0 →
      (∃ r ∈ rs, racesRowComplete r ∧ pyStrip r.city = cityK ∧
        standardize_venue_name (pyStrip r.city) (pyStrip r.venue) = venueK) →
      races_loop ext rs st vs es = some out →
      out.2.2.callLog.count (geoCacheKey (venueK ++ ", " ++ cityK) "WA") =
        st.callLog.count (geoCacheKey (venueK ++ ", " ++ cityK) "WA") + 1 ∧
      keyCount out.1 (cityK ++ ", " ++ venueK) =
        geoOkBit ext (venueK ++ ", " ++ cityK)
  | [], st, vs, es, out => by
    intro _ _ _ _ _ hex _
    obtain ⟨r, hr, _⟩ := hex
    exact absurd hr (List.not_mem_nil r)
  | r :: rs, st, vs, es, out => by
    intro H2 H3 hfresh hanyF hkc hex hrun
    have H2' := fun r' hr' => H2 r' (List.mem_cons_of_mem r hr')
    have H3' := fun r' hr' => H3 r' (List.mem_cons_of_mem r hr')
    simp only [races_loop] at hrun
    by_cases hcomp : racesRowComplete r
    · rw [if_neg hcomp] at hrun
      cases hp : parse_mm_dd (pyStrip r.date) with
      | none =>
        rw [hp] at hrun
        exact absurd hrun (by simp)
      | some md =>
        obtain ⟨m, d⟩ := md
        rw [hp] at hrun
        dsimp only at hrun
        by_cases hK : pyStrip r.city = cityK ∧
            standardize_venue_name (pyStrip r.city) (pyStrip r.venue) = venueK
        · rw [hK.2, hK.1] at hrun
          rw [if_neg (by rw [hanyF]; simp)] at hrun
          rw [geocode_fresh ext st (venueK ++ ", " ++ cityK) "WA" hfresh] at hrun
          cases hacc : geoAccept ext (venueK ++ ", " ++ cityK) "WA" with
          | none =>
            rw [hacc] at hrun
            dsimp only at hrun
            have hinv2 : c5InvB ext cityK venueK
                ⟨(geoCacheKey (venueK ++ ", " ++ cityK) "WA", none) :: st.cache,
                 st.callLog ++ [geoCacheKey (venueK ++ ", " ++ cityK) "WA"]⟩ vs := by
              refine ⟨?_, ?_, ?_⟩
              · rw [alookup_cons, if_pos rfl, hacc]
              · rw [hanyF, hacc]
                rfl
              · rw [hkc]
                unfold geoOkBit
                rw [hacc]
            have hres := races_loopB ext cityK venueK rs _ vs _ out
              H2' H3' hinv2 hrun
            refine ⟨?_, ?_⟩
            · rw [hres.1]
              exact count_append_one_self st.callLog _
            · rw [hres.2, hkc]
              unfold geoOkBit
              rw [hacc]
          | some geo =>
            rw [hacc] at hrun
            dsimp only at hrun
            have hinv2 : c5InvB ext cityK venueK
                ⟨(geoCacheKey (venueK ++ ", " ++ cityK) "WA", some geo) :: st.cache,
                 st.callLog ++ [geoCacheKey (venueK ++ ", " ++ cityK) "WA"]⟩
                (vs ++ [⟨cityK ++ ", " ++ venueK, cityK, venueK, geo⟩]) := by
              refine ⟨?_, ?_, ?_⟩
              · rw [alookup_cons, if_pos rfl, hacc]
              · rw [any_append_w, hacc]
                simp
              · rw [keyCount_append, hkc]
                unfold geoOkBit
                rw [hacc]
                simp
            have hres := races_loopB ext cityK venueK rs _ _ _ out
              H2' H3' hinv2 hrun
            refine ⟨?_, ?_⟩
            · rw [hres.1]
              exact count_append_one_self st.callLog _
            · rw [hres.2, keyCount_append, hkc]
              unfold geoOkBit
              rw [hacc]
              simp
        · have hex2 : ∃ r' ∈ rs, racesRowComplete r' ∧ pyStrip r'.city = cityK ∧
              standardize_venue_name (pyStrip r'.city) (pyStrip r'.venue) = venueK := by
            obtain ⟨r', hr', hc', hK'⟩ := hex
            rcases List.mem_cons.mp hr' with heq | hmem
            · subst heq
              exact absurd hK' hK
            · exact ⟨r', hmem, hc', hK'⟩
          have hkne : pyStrip r.city ++ ", " ++
              standardize_venue_name (pyStrip r.city) (pyStrip r.venue) ≠
              cityK ++ ", " ++ venueK :=
            fun h => hK (H2 r (List.mem_cons_self r rs) hcomp h)
          have hqne := H3 r (List.mem_cons_self r rs) hcomp hK
          have hckne : geoCacheKey
              (standardize_venue_name (pyStrip r.city) (pyStrip r.venue) ++ ", " ++
                pyStrip r.city) "WA" ≠
              geoCacheKey (venueK ++ ", " ++ cityK) "WA" :=
            fun h => hqne (geoCacheKey_inj _ _ _ h)
          by_cases hany : vs.any (fun v => v.location_key =
              pyStrip r.city ++ ", " ++
                standardize_venue_name (pyStrip r.city) (pyStrip r.venue)) = true
          · rw [if_pos hany] at hrun
            exact races_loopA ext cityK venueK rs st vs _ out H2' H3'
              hfresh hanyF hkc hex2 hrun
          · rw [if_neg hany] at hrun
            cases halk : alookup (geoCacheKey
                (standardize_venue_name (pyStrip r.city) (pyStrip r.venue) ++
                  ", " ++ pyStrip r.city) "WA") st.cache with
            | some v =>
              rw [geocode_hit ext st _ "WA" v halk] at hrun
              cases v with
              | none =>
                dsimp only at hrun
                exact races_loopA ext cityK venueK rs st vs _ out H2' H3'
                  hfresh hanyF hkc hex2 hrun
              | some geo =>
                dsimp only at hrun
                have hanyF2 : ((vs ++ [(⟨pyStrip r.city ++ ", " ++
                    standardize_venue_name (pyStrip r.city) (pyStrip r.venue),
                    pyStrip r.city,
                    standardize_venue_name (pyStrip r.city) (pyStrip r.venue),
                    geo⟩ : VenueRec)]).any (fun v => v.location_key =
                      cityK ++ ", " ++ venueK)) = false := by
                  rw [any_append_w]
                  simp only [decide_eq_false hkne, Bool.or_false]
                  exact hanyF
                have hkc2 : keyCount (vs ++ [(⟨pyStrip r.city ++ ", " ++
                    standardize_venue_name (pyStrip r.city) (pyStrip r.venue),
                    pyStrip r.city,
                    standardize_venue_name (pyStrip r.city) (pyStrip r.venue),
                    geo⟩ : VenueRec)]) (cityK ++ ", " ++ venueK) = 0 := by
                  rw [keyCount_append]
                  simp only [if_neg hkne, Nat.add_zero]
                  exact hkc
                exact races_loopA ext cityK venueK rs st _ _ out H2' H3'
                  hfresh hanyF2 hkc2 hex2 hrun
            | none =>
              rw [geocode_fresh ext st _ "WA" halk] at hrun
              cases hacc2 : geoAccept ext
                  (standardize_venue_name (pyStrip r.city) (pyStrip r.venue) ++
                    ", " ++ pyStrip r.city) "WA" with
              | none =>
                rw [hacc2] at hrun
                dsimp only at hrun
                have hfresh2 : alookup
                    (geoCacheKey (venueK ++ ", " ++ cityK) "WA")
                    ((geoCacheKey (standardize_venue_name (pyStrip r.city)
                        (pyStrip r.venue) ++ ", " ++ pyStrip r.city) "WA",
                      (none : Option Geocoded)) :: st.cache) = none := by
                  rw [alookup_cons, if_neg hckne]
                  exact hfresh
                have hres := races_loopA ext cityK venueK rs _ vs _ out H2' H3'
                  hfresh2 hanyF hkc hex2 hrun
                refine ⟨?_, hres.2⟩
                rw [hres.1]
                rw [count_append_one_ne st.callLog _ _ hckne]
              | some geo =>
                rw [hacc2] at hrun
                dsimp only at hrun
                have hfresh2 : alookup
                    (geoCacheKey (venueK ++ ", " ++ cityK) "WA")
                    ((geoCacheKey (standardize_venue_name (pyStrip r.city)
                        (pyStrip r.venue) ++ ", " ++ pyStrip r.city) "WA",
                      some geo) :: st.cache) = none := by
                  rw [alookup_cons, if_neg hckne]
                  exact hfresh
                have hanyF2 : ((vs ++ [(⟨pyStrip r.city ++ ", " ++
                    standardize_venue_name (pyStrip r.city) (pyStrip r.venue),
                    pyStrip r.city,
                    standardize_venue_name (pyStrip r.city) (pyStrip r.venue),
                    geo⟩ : VenueRec)]).any (fun v => v.location_key =
                      cityK ++ ", " ++ venueK)) = false := by
                  rw [any_append_w]
                  simp only [decide_eq_false hkne, Bool.or_false]
                  exact hanyF
                have hkc2 : keyCount (vs ++ [(⟨pyStrip r.city ++ ", " ++
                    standardize_venue_name (pyStrip r.city) (pyStrip r.venue),
                    pyStrip r.city,
                    standardize_venue_name (pyStrip r.city) (pyStrip r.venue),
                    geo⟩ : VenueRec)]) (cityK ++ ", " ++ venueK) = 0 := by
                  rw [keyCount_append]
                  simp only [if_neg hkne, Nat.add_zero]
                  exact hkc
                have hres := races_loopA ext cityK venueK rs _ _ _ out H2' H3'
                  hfresh2 hanyF2 hkc2 hex2 hrun
                refine ⟨?_, hres.2⟩
                rw [hres.1]
                rw [count_append_one_ne st.callLog _ _ hckne]
    · rw [if_pos (not_not.mp hcomp)] at hrun
      have hex2 : ∃ r' ∈ rs, racesRowComplete r' ∧ pyStrip r'.city = cityK ∧
          standardize_venue_name (pyStrip r'.city) (pyStrip r'.venue) = venueK := by
        obtain ⟨r', hr', hc', hK'⟩ := hex
        rcases List.mem_cons.mp hr' with heq | hmem
        · subst heq
          exact absurd hc' hcomp
        · exact ⟨r', hmem, hc', hK'⟩
      exact races_loopA ext cityK venueK rs st vs _ out H2' H3'
        hfresh hanyF hkc hex2 hrun

/-- C5 counterexample: two complete rows resolve to the same location
key "Spokane, X", the run makes exactly one external geocoding call for
it, but because the lookup fails the resulting venue collection contains
no Venue with that key — not exactly one as claimed. -/
theorem c5_counterexample :
    process_races extFail emptyGeoState [c5RowCE, c5RowCE] =
      some ([], [], ⟨[("X, Spokane|WA", (none : Option Geocoded))],
        ["X, Spokane|WA"]⟩) ∧
    racesRowComplete c5RowCE ∧
    rowKey c5RowCE = "Spokane, X" := by
  refine ⟨?_, ?_, ?_⟩ <;> decide

/-- C5 amended: when N rows (N ≥ 1) resolve to the same canonical
(city, venue) pair — with that key determining the pair among the input
rows, and other pairs issuing different geocoding queries — a run of
`process_races` whose cache does not already hold that venue's query
makes exactly one external geocoding call for it; the venue collection
gains exactly one Venue under that key when the result is accepted, and
none when it is not. -/
theorem c5_amended (ext : String → Option RawGeo) (rows : List RaceRow)
    (cityK venueK : String) (st0 : GeoState)
    (out : List VenueRec × List Event × GeoState)
    (hfresh : alookup (geoCacheKey (queryOfPair (cityK, venueK)) "WA")
      st0.cache = none)
    (H1 : ∃ r ∈ rows, racesRowComplete r ∧ rowCity r = cityK ∧
      rowVenue r = venueK)
    (H2 : ∀ r ∈ rows, racesRowComplete r →
      rowKey r = keyOfPair (cityK, venueK) →
      rowCity r = cityK ∧ rowVenue r = venueK)
    (H3 : ∀ r ∈ rows, racesRowComplete r →
      ¬(rowCity r = cityK ∧ rowVenue r = venueK) →
      rowQuery r ≠ queryOfPair (cityK, venueK))
    (hrun : process_races ext st0 rows = some out) :
    out.2.2.callLog.count (geoCacheKey (queryOfPair (cityK, venueK)) "WA") =
      st0.callLog.count (geoCacheKey (queryOfPair (cityK, venueK)) "WA") + 1 ∧
    keyCount out.1 (keyOfPair (cityK, venueK)) =
      (if (geoAccept ext (queryOfPair (cityK, venueK)) "WA").isSome
        then 1 else 0) := by
  have h := races_loopA ext cityK venueK rows st0 [] [] out H2 H3 hfresh
    rfl rfl H1 hrun
  refine ⟨h.1, ?_⟩
  show keyCount out.1 (cityK ++ ", " ++ venueK) =
    (if (geoAccept ext (venueK ++ ", " ++ cityK) "WA").isSome then 1 else 0)
  rw [h.2]
  unfold geoOkBit
  cases geoAccept ext (venueK ++ ", " ++ cityK) "WA" <;> simp

/-- Witness for the C5 amended theorem on a successful concrete run:
one external call, one venue. -/
theorem c5_witness :
    c5OutW.2.2.callLog.count
        (geoCacheKey (queryOfPair ("Spokane", "X")) "WA") =
      emptyGeoState.callLog.count
        (geoCacheKey (queryOfPair ("Spokane", "X")) "WA") + 1 ∧
    keyCount c5OutW.1 (keyOfPair ("Spokane", "X")) =
      (if (geoAccept extInB (queryOfPair ("Spokane", "X")) "WA").isSome
        then 1 else 0) :=
  c5_amended extInB [c5RowCE, c5RowCE] "Spokane" "X" emptyGeoState c5OutW
    (by decide) (by decide) (by decide) (by decide) (by decide)
